import Mathlib

/-!
# GlowBack gateway core — verification of the orchestration spec

Shallow embedding of the GlowBack backtesting gateway core
(`src/api/app/store.py`, `src/api/app/optimization_store.py`,
`src/api/app/rate_limit.py` and the result endpoints of
`src/api/app/main.py`) in Lean 4, together with theorems settling the
spec's claims about it.

Modelling conventions:
* Python floats are modelled as rationals (`ℚ`); `datetime.now` /
  `time.monotonic` become explicit `now : ℚ` arguments.
* `uuid4` identifiers become explicit id arguments (run ids) or are
  derived from the trial index (trial ids); nothing in the code depends
  on their shape.
* Randomness and the transcendental float functions `math.log` /
  `math.exp` are modelled as explicit oracle parameters, so every
  definition stays executable.
* `dict` becomes either a lookup function `String → Option _` (the
  store tables) or an association list (event payloads, metric maps).
* Each `async` method runs its lock-protected sections in sequence;
  the embedding composes them as pure state transformers.
-/

/-- A JSON-ish value occurring in an event payload or request field
(`dict[str, Any]` in the Python models). -/
inductive Value where
  | vState (s : String)
  | vRat (q : ℚ)
  | vStr (s : String)
  | vNone
deriving DecidableEq, Repr

/-- `models.RunState`. -/
inductive RunState where
  | queued
  | running
  | completed
  | failed
deriving DecidableEq, Repr

/-- `models.EventType`. -/
inductive EventType where
  | log
  | progress
  | metric
  | state
deriving DecidableEq, Repr

/-- `models.StrategyConfig`. -/
structure StrategyConfig where
  name : String
  params : List (String × Value)
deriving DecidableEq, Repr

/-- `models.ExecutionConfig`. -/
structure ExecutionConfig where
  slippage_bps : Option ℚ
  commission_bps : Option ℚ
  latency_ms : Option ℤ
deriving DecidableEq, Repr

/-- `models.BacktestRequest` (timestamps and floats as `ℚ`). -/
structure BacktestRequest where
  symbols : List String
  start_date : ℚ
  end_date : ℚ
  resolution : String
  strategy : StrategyConfig
  execution : ExecutionConfig
  initial_capital : ℚ
  currency : String
  tz : String
deriving DecidableEq, Repr

/-- `models.BacktestStatus`. -/
structure BacktestStatus where
  run_id : String
  state : RunState
  progress : ℚ
  created_at : ℚ
  started_at : Option ℚ
  finished_at : Option ℚ
  error : Option String
deriving DecidableEq, Repr

/-- `models.BacktestEvent`; the payload dict is an association list. -/
structure BacktestEvent where
  event_id : Nat
  run_id : String
  type : EventType
  timestamp : ℚ
  payload : List (String × Value)
deriving DecidableEq, Repr

/-- `models.BacktestResult`. -/
structure BacktestResult where
  run_id : String
  metrics_summary : List (String × ℚ)
  equity_curve : List (List (String × Value))
  trades : List (List (String × Value))
  exposures : List (List (String × Value))
  logs : List String
deriving DecidableEq, Repr

/-- An `asyncio.Queue(maxsize)` as seen by the fan-out path: its buffered
items plus its capacity. -/
structure Queue where
  items : List BacktestEvent
  maxsize : Nat
deriving DecidableEq, Repr

/-- `queue.put_nowait(event)`: `some` of the grown queue when there is
room, `none` (the `QueueFull` branch) when the buffer is at capacity. -/
def Queue.put_nowait (q : Queue) (e : BacktestEvent) : Option Queue :=
  if q.items.length < q.maxsize then some { q with items := q.items ++ [e] } else none

/-- `store.RunRecord`.  The Python record holds a `set` of subscriber
queues by reference; the embedding stores the queues themselves, in a
list (set iteration order is irrelevant to every property proved here). -/
structure RunRecord where
  request : BacktestRequest
  status : BacktestStatus
  result : Option BacktestResult
  events : List BacktestEvent
  subscribers : List Queue
  next_event_id : Nat
deriving DecidableEq, Repr

/-- `store.RunStore`: the `_runs` dict as a lookup function. -/
structure RunStore where
  runs : String → Option RunRecord

/-- Functional update of a store table (dict assignment). -/
def updRun (runs : String → Option RunRecord) (run_id : String) (r : RunRecord) :
    String → Option RunRecord :=
  fun k => if k = run_id then some r else runs k

/-- The store at process start: no runs. -/
def RunStore.empty : RunStore := ⟨fun _ => none⟩

/-- `RunStore._fanout`: best-effort non-blocking delivery; a full queue
keeps its old contents (the `except QueueFull: continue` branch). -/
def RunStore._fanout (subscribers : List Queue) (e : BacktestEvent) : List Queue :=
  subscribers.map (fun q => (q.put_nowait e).getD q)

/-- The `BacktestEvent` built by `RunStore._publish_event`: it carries
the record's current counter as its id. -/
def published_event (r : RunRecord) (run_id : String) (t : EventType)
    (payload : List (String × Value)) (now : ℚ) : BacktestEvent :=
  { event_id := r.next_event_id, run_id := run_id, type := t,
    timestamp := now, payload := payload }

/-- The body of `RunStore._publish_event` once the record is found:
assign the next sequence number, append, bump the counter, fan out. -/
def publish_event_rec (r : RunRecord) (run_id : String) (t : EventType)
    (payload : List (String × Value)) (now : ℚ) : RunRecord :=
  let e := published_event r run_id t payload now
  { r with
    events := r.events ++ [e],
    next_event_id := r.next_event_id + 1,
    subscribers := RunStore._fanout r.subscribers e }

/-- `RunStore._publish_event`: unknown run id is a silent no-op. -/
def RunStore._publish_event (store : RunStore) (run_id : String) (t : EventType)
    (payload : List (String × Value)) (now : ℚ) : RunStore :=
  match store.runs run_id with
  | none => store
  | some r => ⟨updRun store.runs run_id (publish_event_rec r run_id t payload now)⟩

/-- `RunStore.create_run` (the fresh `uuid4` is the explicit `run_id`
argument): insert a queued status record, then emit the initial state
event. -/
def RunStore.create_run (store : RunStore) (run_id : String)
    (request : BacktestRequest) (now : ℚ) : RunStore × BacktestStatus :=
  let status : BacktestStatus :=
    { run_id := run_id, state := RunState.queued, progress := 0,
      created_at := now, started_at := none, finished_at := none, error := none }
  let record : RunRecord :=
    { request := request, status := status, result := none,
      events := [], subscribers := [], next_event_id := 1 }
  let store' : RunStore := ⟨updRun store.runs run_id record⟩
  (store'._publish_event run_id EventType.state
      [("state", Value.vState "queued"), ("message", Value.vStr "Run queued")] now,
   status)

/-- `RunStore.get_status`. -/
def RunStore.get_status (store : RunStore) (run_id : String) : Option BacktestStatus :=
  (store.runs run_id).map (·.status)

/-- `RunStore.get_result`: `none` both for an unknown run id and for a
known run whose result has not been set. -/
def RunStore.get_result (store : RunStore) (run_id : String) : Option BacktestResult :=
  (store.runs run_id).bind (·.result)

/-- `RunStore.get_events_after`. -/
def RunStore.get_events_after (store : RunStore) (run_id : String)
    (last_event_id : Option Nat) : List BacktestEvent :=
  match store.runs run_id with
  | none => []
  | some record =>
    match last_event_id with
    | none => record.events
    | some k => record.events.filter (fun e => k < e.event_id)

/-- `RunStore.subscribe`: register a fresh empty queue of capacity 100. -/
def RunStore.subscribe (store : RunStore) (run_id : String) : RunStore × Option Queue :=
  let queue : Queue := { items := [], maxsize := 100 }
  match store.runs run_id with
  | none => (store, none)
  | some record =>
    (⟨updRun store.runs run_id { record with subscribers := record.subscribers ++ [queue] }⟩,
     some queue)

/-- `RunStore.update_state`: set state and error, stamp `started_at`
once and `finished_at` on terminal states, then emit a state event. -/
def RunStore.update_state (store : RunStore) (run_id : String) (state : RunState)
    (error : Option String) (now : ℚ) : RunStore :=
  match store.runs run_id with
  | none => store
  | some record =>
    let status1 := { record.status with state := state, error := error }
    let status2 :=
      if state = RunState.running ∧ status1.started_at = none then
        { status1 with started_at := some now }
      else status1
    let status3 :=
      if state = RunState.completed ∨ state = RunState.failed then
        { status2 with finished_at := some now }
      else status2
    let store' : RunStore := ⟨updRun store.runs run_id { record with status := status3 }⟩
    store'._publish_event run_id EventType.state
      [("state", Value.vState "updated"),
       ("error", match error with | none => Value.vNone | some m => Value.vStr m)] now

/-- The payload dict built by `RunStore.update_progress`: the raw
argument under `"progress"`, plus `"message"` when the message is
truthy. -/
def progress_payload (progress : ℚ) (message : Option String) : List (String × Value) :=
  [("progress", Value.vRat progress)] ++
    (match message with
     | none => []
     | some m => if m = "" then [] else [("message", Value.vStr m)])

/-- `RunStore.update_progress`: clamp the stored progress into `[0,1]`,
then emit a progress event carrying the raw argument. -/
def RunStore.update_progress (store : RunStore) (run_id : String) (progress : ℚ)
    (message : Option String) (now : ℚ) : RunStore :=
  match store.runs run_id with
  | none => store
  | some record =>
    let record' :=
      { record with status := { record.status with progress := max 0 (min progress 1) } }
    let store' : RunStore := ⟨updRun store.runs run_id record'⟩
    store'._publish_event run_id EventType.progress (progress_payload progress message) now

/-- `RunStore.set_result`: store the result, then `update_state(completed)`. -/
def RunStore.set_result (store : RunStore) (run_id : String) (result : BacktestResult)
    (now : ℚ) : RunStore :=
  match store.runs run_id with
  | none => store
  | some record =>
    let store' : RunStore := ⟨updRun store.runs run_id { record with result := some result }⟩
    store'.update_state run_id RunState.completed none now

/-- An HTTP handler outcome: a payload or an `HTTPException` with its
status code and detail string. -/
inductive ApiResponse (α : Type) where
  | ok (a : α)
  | error (status_code : Nat) (detail : String)
deriving DecidableEq, Repr

/-- `main.get_backtest_results` (`GET /backtests/{run_id}/results`):
any falsy `get_result` — unknown id or absent result alike — raises
409 "Results not ready". -/
def get_backtest_results (store : RunStore) (run_id : String) : ApiResponse BacktestResult :=
  match store.get_result run_id with
  | none => ApiResponse.error 409 "Results not ready"
  | some r => ApiResponse.ok r

/-- `main.get_backtest` (`GET /backtests/{run_id}`): unknown id raises
404 "Run not found". -/
def get_backtest (store : RunStore) (run_id : String) : ApiResponse BacktestStatus :=
  match store.get_status run_id with
  | none => ApiResponse.error 404 "Run not found"
  | some s => ApiResponse.ok s

/-- `optimization_models.ParameterKind`. -/
inductive ParameterKind where
  | float_range
  | int_range
  | log_uniform
  | choice
deriving DecidableEq, Repr

/-- A concrete sampled or enumerated parameter value (`Any` in the
Python models: a number or a string). -/
inductive ParamValue where
  | num (q : ℚ)
  | str (s : String)
deriving DecidableEq, Repr

/-- `optimization_models.ParameterDef`.  The Python fields `low`,
`high` and `values` default to `None`; the spec (§7) has the core
assume well-formed requests (bounds present for range kinds, a value
list present for choice kinds), and the code crashes otherwise, so the
embedding carries the well-formed fields directly. -/
structure ParameterDef where
  name : String
  kind : ParameterKind
  low : ℚ
  high : ℚ
  values : List ParamValue
deriving DecidableEq, Repr

/-- `optimization_models.SearchSpaceConfig`. -/
structure SearchSpaceConfig where
  parameters : List ParameterDef
deriving DecidableEq, Repr

/-- `optimization_models.ObjectiveDirection`. -/
inductive ObjectiveDirection where
  | maximize
  | minimize
deriving DecidableEq, Repr

/-- `optimization_models.SearchStrategyName`. -/
inductive SearchStrategyName where
  | grid
  | random
  | bayesian
deriving DecidableEq, Repr

/-- `optimization_models.OptimizationRequest` (the `ray_cluster`
sub-config is irrelevant to the store and kept as a flag). -/
structure OptimizationRequest where
  name : String
  description : String
  search_space : SearchSpaceConfig
  strategy : SearchStrategyName
  max_trials : Nat
  concurrency : Nat
  objective_metric : String
  direction : ObjectiveDirection
  base_backtest : List (String × Value)
  exploration_weight : ℚ
  grid_steps : Nat
  ray_cluster : Option Unit
deriving DecidableEq, Repr

/-- `optimization_models.OptimizationState`. -/
inductive OptimizationState where
  | pending
  | running
  | completed
  | failed
  | cancelled
deriving DecidableEq, Repr

/-- `optimization_models.TrialStatus`. -/
inductive TrialStatus where
  | pending
  | running
  | completed
  | failed
deriving DecidableEq, Repr

/-- `optimization_store.TrialRecord`. -/
structure TrialRecord where
  trial_id : String
  trial_number : Nat
  parameters : List (String × ParamValue)
  status : TrialStatus
  objective : Option ℚ
  metrics : List (String × ℚ)
  duration_seconds : Option ℤ
  error : Option String
  started_at : Option ℚ
  finished_at : Option ℚ
deriving DecidableEq, Repr

/-- `optimization_store.OptimizationRecord`.  `best_trial` holds a
snapshot of the referenced trial (the Python record aliases the list
entry; every read the claims touch happens after the trial stopped
mutating, where the two coincide). -/
structure OptimizationRecord where
  optimization_id : String
  request : OptimizationRequest
  state : OptimizationState
  trials : List TrialRecord
  best_trial : Option TrialRecord
  created_at : ℚ
  started_at : Option ℚ
  finished_at : Option ℚ
  error : Option String
deriving DecidableEq, Repr

/-- `optimization_store.OptimizationStore`: the `_optimizations` dict. -/
structure OptimizationStore where
  optimizations : String → Option OptimizationRecord

/-- Functional update of the optimization table. -/
def updOpt (t : String → Option OptimizationRecord) (opt_id : String)
    (r : OptimizationRecord) : String → Option OptimizationRecord :=
  fun k => if k = opt_id then some r else t k

/-- The optimization store at process start. -/
def OptimizationStore.empty : OptimizationStore := ⟨fun _ => none⟩

/-- Python's `int()` on a float/rational: truncation toward zero. -/
def py_int (q : ℚ) : ℤ :=
  if 0 ≤ q then ⌊q⌋ else ⌈q⌉

/-- Python's `round(x, 6)` on the exact rational: nearest multiple of
`10⁻⁶` (the half-even float detail is immaterial to every property
proved here, which only counts grid points of the continuous kinds). -/
def round6 (q : ℚ) : ℚ :=
  ((round (q * 1000000) : ℤ) : ℚ) / 1000000

/-- The float transcendentals `math.exp` / `math.log` used by the
log-uniform kind, as an explicit oracle (floating point is not
re-modelled; no claim depends on the numeric values). -/
structure MathOracle where
  exp : ℚ → ℚ
  lg : ℚ → ℚ

/-- `optimization_store._grid_values`: the discretized grid of one
parameter. -/
def _grid_values (o : MathOracle) (param : ParameterDef) (steps : Nat) : List ParamValue :=
  match param.kind with
  | ParameterKind.int_range =>
    let low := py_int param.low
    let high := py_int param.high
    (List.range (high + 1 - low).toNat).map (fun i : Nat => ParamValue.num ((low : ℚ) + (i : ℚ)))
  | ParameterKind.float_range =>
    (List.range steps).map (fun i : Nat =>
      ParamValue.num (round6 (param.low + (i : ℚ) * (param.high - param.low) / ((steps : ℚ) - 1))))
  | ParameterKind.log_uniform =>
    let log_low := o.lg param.low
    let log_high := o.lg param.high
    (List.range steps).map (fun i : Nat =>
      ParamValue.num (round6 (o.exp (log_low + (i : ℚ) * (log_high - log_low) / ((steps : ℚ) - 1)))))
  | ParameterKind.choice => param.values

/-- `itertools.product` over a list of axes, row-major (the leftmost
axis varies slowest, exactly the order Python yields). -/
def prodLists {α : Type} : List (List α) → List (List α)
  | [] => [[]]
  | axis :: rest => axis.flatMap (fun v => (prodLists rest).map (fun tail => v :: tail))

/-- `optimization_store._generate_grid_combos`: the full cartesian
product of the per-parameter grids, as name→value association lists,
truncated to `max_trials`. -/
def _generate_grid_combos (o : MathOracle) (request : OptimizationRequest) :
    List (List (String × ParamValue)) :=
  let names := request.search_space.parameters.map (·.name)
  let axes := request.search_space.parameters.map
    (fun p => _grid_values o p request.grid_steps)
  ((prodLists axes).map (fun vals => names.zip vals)).take request.max_trials

/-- `optimization_store._generate_trial_params`.  The random draws of
`_sample_parameter` (random / bayesian strategies) are supplied by the
`sampler` oracle, one value per trial index and parameter. -/
def _generate_trial_params (o : MathOracle)
    (sampler : Nat → ParameterDef → ParamValue)
    (request : OptimizationRequest) (count : Nat) :
    List (List (String × ParamValue)) :=
  if request.strategy = SearchStrategyName.grid then
    _generate_grid_combos o request
  else
    (List.range count).map (fun i =>
      request.search_space.parameters.map (fun p => (p.name, sampler i p)))

/-- `OptimizationStore.create` (the fresh `uuid4` is the explicit
`opt_id` argument): insert a pending record. -/
def OptimizationStore.create (store : OptimizationStore) (opt_id : String)
    (request : OptimizationRequest) (now : ℚ) : OptimizationStore :=
  let record : OptimizationRecord :=
    { optimization_id := opt_id, request := request,
      state := OptimizationState.pending, trials := [], best_trial := none,
      created_at := now, started_at := none, finished_at := none, error := none }
  ⟨updOpt store.optimizations opt_id record⟩

/-- `OptimizationStore.cancel`: `false` for an unknown id or a terminal
state, otherwise flip to cancelled, stamp `finished_at`, return `true`. -/
def OptimizationStore.cancel (store : OptimizationStore) (opt_id : String) (now : ℚ) :
    OptimizationStore × Bool :=
  match store.optimizations opt_id with
  | none => (store, false)
  | some record =>
    if record.state = OptimizationState.completed ∨
        record.state = OptimizationState.failed ∨
        record.state = OptimizationState.cancelled then
      (store, false)
    else
      (⟨updOpt store.optimizations opt_id
          { record with state := OptimizationState.cancelled, finished_at := some now }⟩,
       true)

/-- Lines 297–309 of `optimization_store.run_optimization`: the
best-trial update after a trial completes.  Python's `(x or 0)` on an
optional float is `Option.getD 0` (a present `0.0` is falsy in Python
but `0.0 or 0` is numerically the same 0). -/
def update_best (direction : ObjectiveDirection) (best : Option TrialRecord)
    (trial : TrialRecord) : Option TrialRecord :=
  match best with
  | none => some trial
  | some b =>
    if (direction = ObjectiveDirection.maximize ∧
          b.objective.getD 0 < trial.objective.getD 0) ∨
        (direction = ObjectiveDirection.minimize ∧
          trial.objective.getD 0 < b.objective.getD 0) then
      some trial
    else
      some b

/-- Python's `range(0, stop, step)` for a positive step: the multiples
of `step` below `stop`.  (`step = 0` raises in Python; kept total here,
unreachable since the request model enforces `concurrency ≥ 1`.) -/
def range_step (stop step : Nat) : List Nat :=
  if step = 0 then [] else (List.range ((stop + step - 1) / step)).map (· * step)

/-- The batch slices `l[batch_start : batch_start + size]` taken by the
loop `for batch_start in range(0, len(l), size)`. -/
def toBatches {α : Type} (size : Nat) (l : List α) : List (List α) :=
  (range_step l.length size).map (fun s => ((l.drop s).take size))

/-- Step b of the batch loop: mark the trial at index `i` running. -/
def mark_running (rec_ : OptimizationRecord) (i : Nat) (now : ℚ) : OptimizationRecord :=
  match rec_.trials[i]? with
  | none => rec_
  | some t =>
    let t' := { t with status := TrialStatus.running, started_at := some now }
    { rec_ with trials := rec_.trials.set i t' }

/-- Steps c–d of the batch loop for the trial at index `i`: record the
engine's metric map (the `metricsOracle`, standing for the simulated
random metrics), derive the objective via `metrics.get(obj_metric, 0.0)`,
mark completed (elapsed monotonic time is 0 at this granularity, so
`max(1, int(elapsed))` is 1), and update the best trial. -/
def complete_trial (request : OptimizationRequest) (metricsOracle : Nat → List (String × ℚ))
    (now : ℚ) (rec_ : OptimizationRecord) (i : Nat) : OptimizationRecord :=
  match rec_.trials[i]? with
  | none => rec_
  | some t =>
    let metrics := metricsOracle t.trial_number
    let objective := (metrics.lookup request.objective_metric).getD 0
    let t' : TrialRecord :=
      { t with
        metrics := metrics,
        objective := some objective,
        status := TrialStatus.completed,
        finished_at := some now,
        duration_seconds := some (max 1 (py_int (now - now))) }
    let rec' := { rec_ with trials := rec_.trials.set i t' }
    { rec' with best_trial := update_best request.direction rec'.best_trial t' }

/-- The batch loop of `run_optimization` over batches of trial indices:
at each batch boundary, a cancelled state stops the loop (early
`return`); otherwise the batch is marked running and then completed. -/
def run_batches (request : OptimizationRequest) (metricsOracle : Nat → List (String × ℚ))
    (now : ℚ) (rec_ : OptimizationRecord) : List (List Nat) → OptimizationRecord
  | [] => rec_
  | batch :: rest =>
    if rec_.state = OptimizationState.cancelled then rec_
    else
      let rec1 := batch.foldl (fun r i => mark_running r i now) rec_
      let rec2 := batch.foldl (fun r i => complete_trial request metricsOracle now r i) rec1
      run_batches request metricsOracle now rec2 rest

/-- `OptimizationStore.run_optimization`: mark running, generate the
trial parameter assignments, instantiate the trials (trial ids stand in
for `uuid4`), process the batches with cancellation checks, and finally
complete the record if it is still running. -/
def OptimizationStore.run_optimization (store : OptimizationStore) (opt_id : String)
    (o : MathOracle) (sampler : Nat → ParameterDef → ParamValue)
    (metricsOracle : Nat → List (String × ℚ)) (now : ℚ) : OptimizationStore :=
  match store.optimizations opt_id with
  | none => store
  | some record0 =>
    let record1 := { record0 with state := OptimizationState.running, started_at := some now }
    let request := record1.request
    let all_params := _generate_trial_params o sampler request request.max_trials
    let trials := all_params.enum.map (fun p =>
      { trial_id := toString p.1, trial_number := p.1, parameters := p.2,
        status := TrialStatus.pending, objective := none, metrics := [],
        duration_seconds := none, error := none, started_at := none,
        finished_at := none : TrialRecord })
    let record2 := { record1 with trials := trials }
    let batches := toBatches request.concurrency (List.range trials.length)
    let record3 := run_batches request metricsOracle now record2 batches
    let record4 :=
      if record3.state = OptimizationState.running then
        { record3 with state := OptimizationState.completed, finished_at := some now }
      else record3
    ⟨updOpt store.optimizations opt_id record4⟩

/-- The state of an optimization as read back from the store. -/
def stateOf (store : OptimizationStore) (opt_id : String) : Option OptimizationState :=
  (store.optimizations opt_id).map (·.state)

/-- `rate_limit._Bucket`: token bucket for a single client. -/
structure Bucket where
  tokens : ℚ
  last_refill : ℚ
deriving DecidableEq, Repr

/-- The informational rate-limit response headers (numeric content of
the `X-RateLimit-*` strings). -/
structure RateHeaders where
  limit : ℤ
  remaining : ℤ
  reset : ℤ
deriving DecidableEq, Repr

/-- `rate_limit.RateLimiter`: per-key token buckets with lazy refill.
`max_tokens` is the integer `GLOWBACK_RATE_LIMIT`, `window` the float
`GLOWBACK_RATE_WINDOW`. -/
structure RateLimiter where
  max_tokens : ℤ
  window : ℚ
  buckets : String → Option Bucket

/-- Functional update of the bucket table. -/
def updBucket (t : String → Option Bucket) (key : String) (b : Bucket) :
    String → Option Bucket :=
  fun k => if k = key then some b else t k

/-- `RateLimiter._refill`: continuous lazy refill at rate
`max_tokens / window`, capped at `max_tokens`. -/
def RateLimiter._refill (l : RateLimiter) (b : Bucket) (now : ℚ) : Bucket :=
  let elapsed := now - b.last_refill
  { tokens := min (l.max_tokens : ℚ) (b.tokens + elapsed * ((l.max_tokens : ℚ) / l.window)),
    last_refill := now }

/-- `RateLimiter.check`: materialize the key's bucket (the defaultdict
default is a full bucket stamped `now`), refill, build the headers, and
consume one token only when at least one is available.  Returns the
updated limiter, the admission decision, and the headers. -/
def RateLimiter.check (l : RateLimiter) (client_ip : String) (now : ℚ) :
    RateLimiter × Bool × RateHeaders :=
  let bucket0 := (l.buckets client_ip).getD { tokens := (l.max_tokens : ℚ), last_refill := now }
  let bucket := l._refill bucket0 now
  let headers : RateHeaders :=
    { limit := l.max_tokens,
      remaining := max 0 (py_int bucket.tokens - 1),
      reset := py_int (bucket.last_refill + l.window) }
  if 1 ≤ bucket.tokens then
    ({ l with buckets := updBucket l.buckets client_ip { bucket with tokens := bucket.tokens - 1 } },
     true, headers)
  else
    ({ l with buckets := updBucket l.buckets client_ip bucket }, false, headers)

/-! ## Claim C1 — run results: NotFound vs NotReady

`RunStore.get_result` returns `None` both for an unknown run id and for
a known run whose result is not yet set, and
`main.get_backtest_results` turns any `None` into the 409 "Results not
ready" response.  An unknown run id is therefore *not* surfaced as
NotFound: it receives exactly the NotReady response, conflating the two
conditions the spec requires to stay distinct. -/

/-- A minimal well-formed backtest request for concrete scenarios. -/
def reqB : BacktestRequest :=
  { symbols := ["AAPL"], start_date := 0, end_date := 1, resolution := "day",
    strategy := { name := "buy_and_hold", params := [] },
    execution := { slippage_bps := none, commission_bps := none, latency_ms := none },
    initial_capital := 1000000, currency := "USD", tz := "UTC" }

/-- A store holding exactly one freshly created (queued, resultless)
run `"run1"`. -/
def storeC1 : RunStore := (RunStore.empty.create_run "run1" reqB 0).1

/-! ## Claim C2 — terminal optimization states are sticky

`OptimizationStore.run_optimization` sets `state = running`
unconditionally on entry; an optimization cancelled while pending is
revived to running and, the batch-boundary checks now seeing `running`,
driven all the way to `completed`.  The cancelled terminal state is not
sticky. -/

/-- The identity stand-in for the `math.exp`/`math.log` oracle (no
log-uniform parameters occur in the concrete scenarios). -/
def oMath : MathOracle := { exp := id, lg := id }

/-- A sampler stand-in (never consulted by grid-strategy scenarios). -/
def samplerNum : Nat → ParameterDef → ParamValue := fun _ p => ParamValue.num p.low

/-- A grid optimization request over the single int-range parameter
`x ∈ [1,3]`. -/
def reqGrid : OptimizationRequest :=
  { name := "opt", description := "",
    search_space := { parameters := [{ name := "x", kind := ParameterKind.int_range,
                                       low := 1, high := 3, values := [] }] },
    strategy := SearchStrategyName.grid, max_trials := 3, concurrency := 4,
    objective_metric := "sharpe_ratio", direction := ObjectiveDirection.maximize,
    base_backtest := [], exploration_weight := mkRat 3 10, grid_steps := 5,
    ray_cluster := none }

/-- Metrics oracle for the C2 scenario. -/
def metricsC2 : Nat → List (String × ℚ) := fun n => [("sharpe_ratio", (n : ℚ))]

/-- The C2 interleaving: create `"opt1"`, cancel it while still
pending, then let its scheduler task start. -/
def storeC2a : OptimizationStore := OptimizationStore.empty.create "opt1" reqGrid 0

/-- After the pending cancel. -/
def storeC2b : OptimizationStore × Bool := storeC2a.cancel "opt1" 1

/-- After the scheduler loop runs on the cancelled record. -/
def storeC2c : OptimizationStore :=
  storeC2b.1.run_optimization "opt1" oMath samplerNum metricsC2 2

/-! ## Further concrete scenarios and derived definitions used by the
claim theorems -/

/-- One pending `_publish_event` call: its type, payload and timestamp. -/
structure PubOp where
  type : EventType
  payload : List (String × Value)
  now : ℚ
deriving DecidableEq, Repr

/-- A sequence of `_publish_event` calls applied to one run record (the
per-run view of repeated appends). -/
def publish_many (r : RunRecord) (run_id : String) (ops : List PubOp) : RunRecord :=
  ops.foldl (fun r0 op => publish_event_rec r0 run_id op.type op.payload op.now) r

/-- The event-log numbering invariant of a run record: the counter sits
one past the log and the stored event ids are `1, 2, …, length`. -/
def EventIdsOk (r : RunRecord) : Prop :=
  r.next_event_id = r.events.length + 1 ∧
  r.events.map (·.event_id) = List.range' 1 r.events.length

/-- The accumulated best-trial fold: lines 297–309 applied to each
completed trial in order. -/
def foldBest (direction : ObjectiveDirection) (ts : List TrialRecord) : Option TrialRecord :=
  ts.foldl (update_best direction) none

/-- The best trial's ordinal, as read back from the store. -/
def bestNumber (store : OptimizationStore) (opt_id : String) : Option Nat :=
  ((store.optimizations opt_id).bind (·.best_trial)).map (·.trial_number)

/-- C5 request: grid over `x ∈ [1,3]` scored on metric `"m"`. -/
def reqC5 (direction : ObjectiveDirection) : OptimizationRequest :=
  { reqGrid with objective_metric := "m", direction := direction }

/-- C5 metrics oracle: the trial objectives 0.2, 0.9, 0.5 in order. -/
def metricsC5 : Nat → List (String × ℚ) :=
  fun n => [("m", ([mkRat 2 10, mkRat 9 10, mkRat 5 10] : List ℚ).getD n 0)]

/-- The C5 maximize scenario run to completion. -/
def storeC5max : OptimizationStore :=
  (OptimizationStore.empty.create "o" (reqC5 ObjectiveDirection.maximize) 0).run_optimization
    "o" oMath samplerNum metricsC5 1

/-- The C5 minimize scenario run to completion. -/
def storeC5min : OptimizationStore :=
  (OptimizationStore.empty.create "o" (reqC5 ObjectiveDirection.minimize) 0).run_optimization
    "o" oMath samplerNum metricsC5 1

/-- The C7 example request: grid over one int-range parameter
`x ∈ [1,3]` with `max_trials = 10`. -/
def reqGrid10 : OptimizationRequest :=
  { reqGrid with max_trials := 10 }

/-- Concrete parameter definition used by the C7 witness. -/
def paramX : ParameterDef :=
  { name := "x", kind := ParameterKind.int_range, low := 1, high := 3, values := [] }

/-- The C8 example limiter: `max_tokens = 2`, `window = 60`, no buckets
yet. -/
def limiter2 : RateLimiter :=
  { max_tokens := 2, window := 60, buckets := fun _ => none }

/-- Three immediate checks for the key `"k"` on `limiter2`. -/
def checkA : RateLimiter × Bool × RateHeaders := limiter2.check "k" 0

/-- Second immediate check. -/
def checkB : RateLimiter × Bool × RateHeaders := checkA.1.check "k" 0

/-- Third immediate check. -/
def checkC : RateLimiter × Bool × RateHeaders := checkB.1.check "k" 0

/-- A fresh run record with two subscribers, one of them already at
capacity, used by the C3 and C9 witnesses. -/
def rcFull : RunRecord :=
  let e0 : BacktestEvent :=
    { event_id := 0, run_id := "other", type := EventType.log, timestamp := 0, payload := [] }
  { request := reqB,
    status := { run_id := "r", state := RunState.queued, progress := 0, created_at := 0,
                started_at := none, finished_at := none, error := none },
    result := none, events := [], subscribers := [⟨[e0], 1⟩, ⟨[], 1⟩],
    next_event_id := 1 }

/-- Two concrete publish operations for the C3/C4 witnesses. -/
def opsTwo : List PubOp :=
  [{ type := EventType.state, payload := [("state", Value.vState "queued")], now := 0 },
   { type := EventType.progress, payload := [("progress", Value.vRat (mkRat 1 2))], now := 1 }]

/-- A store holding the record obtained by publishing `opsTwo` on the
fresh record, for the C4 witness. -/
def storeC4 : RunStore :=
  ⟨updRun RunStore.empty.runs "r" (publish_many rcFull "r" opsTwo)⟩

/-- A store holding the fresh record `rcFull` under id `"r"`, for the
C10 witness. -/
def storeC10 : RunStore :=
  ⟨updRun RunStore.empty.runs "r" rcFull⟩

/-- A completed trial scoring 0.2, for the C5 witness. -/
def trialLo : TrialRecord :=
  { trial_id := "0", trial_number := 0, parameters := [("x", ParamValue.num 1)],
    status := TrialStatus.completed, objective := some (mkRat 2 10), metrics := [],
    duration_seconds := some 1, error := none, started_at := none, finished_at := none }

/-- A completed trial scoring 0.9, for the C5 witness. -/
def trialHi : TrialRecord :=
  { trial_id := "1", trial_number := 1, parameters := [("x", ParamValue.num 2)],
    status := TrialStatus.completed, objective := some (mkRat 9 10), metrics := [],
    duration_seconds := some 1, error := none, started_at := none, finished_at := none }

/-! ## Shared lemmas about the event log -/

/-- A record with no events and counter 1 (as built by `create_run`)
satisfies the numbering invariant. -/
theorem eventIdsOk_fresh (r : RunRecord) (hE : r.events = []) (hN : r.next_event_id = 1) :
    EventIdsOk r := by
  refine ⟨?_, ?_⟩ <;> simp [EventIdsOk, hE, hN]

/-- One publish preserves the numbering invariant. -/
theorem eventIdsOk_publish (r : RunRecord) (rid : String) (t : EventType)
    (p : List (String × Value)) (now : ℚ) (h : EventIdsOk r) :
    EventIdsOk (publish_event_rec r rid t p now) := by
  obtain ⟨hn, hm⟩ := h
  refine ⟨?_, ?_⟩
  · simp [publish_event_rec, hn]
  · have hconcat : List.range' 1 (r.events.length + 1) =
        List.range' 1 r.events.length ++ [r.events.length + 1] := by
      have h0 := @List.range'_concat 1 1 r.events.length
      simpa [Nat.add_comm] using h0
    simp only [publish_event_rec, List.map_append, List.length_append, hm, hn,
      List.map_cons, List.map_nil, List.length_cons, List.length_nil, published_event]
    exact hconcat.symm

/-- Any publish sequence preserves the numbering invariant. -/
theorem eventIdsOk_publish_many (rid : String) (ops : List PubOp) :
    ∀ r : RunRecord, EventIdsOk r → EventIdsOk (publish_many r rid ops) := by
  induction ops with
  | nil => intro r h; exact h
  | cons op rest ih =>
    intro r h
    exact ih (publish_event_rec r rid op.type op.payload op.now)
      (eventIdsOk_publish r rid op.type op.payload op.now h)

/-- Each publish grows the log by exactly one event. -/
theorem publish_many_events_length (rid : String) (ops : List PubOp) :
    ∀ r : RunRecord, (publish_many r rid ops).events.length = r.events.length + ops.length := by
  induction ops with
  | nil => intro r; rfl
  | cons op rest ih =>
    intro r
    have h := ih (publish_event_rec r rid op.type op.payload op.now)
    simp only [publish_many, List.foldl_cons] at h ⊢
    rw [h]
    simp only [publish_event_rec, List.length_append, List.length_cons, List.length_nil]
    omega

/-- The log produced by a publish sequence does not depend on the
subscriber set: only the `subscribers` field differs. -/
theorem publish_many_subscribers (rid : String) (ops : List PubOp) :
    ∀ (r : RunRecord) (subs : List Queue),
      (publish_many { r with subscribers := subs } rid ops).events =
        (publish_many r rid ops).events ∧
      (publish_many { r with subscribers := subs } rid ops).next_event_id =
        (publish_many r rid ops).next_event_id := by
  induction ops with
  | nil => intro r subs; exact ⟨rfl, rfl⟩
  | cons op rest ih =>
    intro r subs
    have h1 : publish_many { r with subscribers := subs } rid (op :: rest) =
        publish_many { publish_event_rec r rid op.type op.payload op.now with
          subscribers := RunStore._fanout subs
            (published_event r rid op.type op.payload op.now) } rid rest := rfl
    rw [h1]
    exact ih (publish_event_rec r rid op.type op.payload op.now)
      (RunStore._fanout subs (published_event r rid op.type op.payload op.now))

/-- Re-assigning the same key overwrites the previous assignment. -/
theorem updRun_updRun (f : String → Option RunRecord) (k : String) (a b : RunRecord) :
    updRun (updRun f k a) k b = updRun f k b := by
  funext x
  by_cases h : x = k <;> simp [updRun, h]

/-- Under the numbering invariant the log's event ids are strictly
increasing. -/
theorem pairwise_eventIds (r : RunRecord) (h : EventIdsOk r) :
    List.Pairwise (fun a b => a.event_id < b.event_id) r.events := by
  have hp : List.Pairwise (· < ·) (r.events.map (·.event_id)) := by
    rw [h.2]
    exact List.pairwise_lt_range' _ _
  exact List.pairwise_map.mp hp

/-! ## Claim theorems -/

/-- C1: requesting a run's result distinguishes NotFound from NotReady
— REFUTED on the code.  `GET /backtests/{id}/results` answers the
unknown id `"missing"` with the very same 409 "Results not ready"
response it gives the existing-but-unfinished run `"run1"`; absence is
not surfaced as NotFound (the status endpoint shows the store could
tell: it answers 404 for the same unknown id). -/
theorem C1_conflation :
    get_backtest_results RunStore.empty "missing" = ApiResponse.error 409 "Results not ready" ∧
    get_backtest_results storeC1 "run1" = ApiResponse.error 409 "Results not ready" ∧
    get_backtest storeC1 "missing" = ApiResponse.error 404 "Run not found" ∧
    get_backtest storeC1 "run1" ≠ get_backtest storeC1 "missing" := by
  refine ⟨rfl, ?_, ?_, ?_⟩ <;> decide

/-- C2: terminal optimization states are sticky — REFUTED on the code.
Cancelling the pending optimization succeeds and leaves it in the
terminal `cancelled` state, yet the subsequent `run_optimization` call
(the background task the API spawns for every created optimization)
overwrites that terminal state with `running` and finally `completed`. -/
theorem C2_terminal_not_sticky :
    stateOf storeC2a "opt1" = some OptimizationState.pending ∧
    storeC2b.2 = true ∧
    stateOf storeC2b.1 "opt1" = some OptimizationState.cancelled ∧
    stateOf storeC2c "opt1" = some OptimizationState.completed := by
  refine ⟨rfl, rfl, rfl, ?_⟩
  decide

/-- C3: starting from a fresh record (empty log, counter 1), a sequence
of `n` appends yields a log of length `n` whose `i`-th event carries
`event_id = i + 1` — ids start at 1, increase strictly, are never
reused — and the assigned ids are independent of the subscriber set. -/
theorem C3_event_ids (r : RunRecord) (rid : String) (ops : List PubOp)
    (hE : r.events = []) (hN : r.next_event_id = 1) :
    ((publish_many r rid ops).events.length = ops.length) ∧
    (∀ i (h : i < (publish_many r rid ops).events.length),
      ((publish_many r rid ops).events.get ⟨i, h⟩).event_id = i + 1) ∧
    (∀ subs : List Queue,
      (publish_many { r with subscribers := subs } rid ops).events.map (·.event_id) =
        (publish_many r rid ops).events.map (·.event_id)) := by
  have hok : EventIdsOk (publish_many r rid ops) :=
    eventIdsOk_publish_many rid ops r (eventIdsOk_fresh r hE hN)
  refine ⟨?_, ?_, ?_⟩
  · have h := publish_many_events_length rid ops r
    rw [hE] at h
    simpa using h
  · intro i h
    have hm := hok.2
    have hlen : i < ((publish_many r rid ops).events.map (·.event_id)).length := by
      simpa using h
    have h3 : ∀ L : List ℕ, L = List.range' 1 (publish_many r rid ops).events.length →
        ∀ hh : i < L.length, L.get ⟨i, hh⟩ = 1 + i := by
      intro L hL hh
      subst hL
      simp [List.getElem_range']
    have h2 : ((publish_many r rid ops).events.map (·.event_id))[i] = 1 + i := by
      have := h3 _ hm hlen
      simpa [List.get_eq_getElem] using this
    have h1 : ((publish_many r rid ops).events.map (·.event_id))[i] =
        ((publish_many r rid ops).events[i]).event_id := by
      simp
    rw [List.get_eq_getElem, ← h1, h2]
    omega
  · intro subs
    exact congrArg (List.map (·.event_id)) (publish_many_subscribers rid ops r subs).1

/-- C3 witness: two appends on the concrete fresh record `rcFull` give
event ids 1 and 2 regardless of its two subscribers. -/
theorem C3_event_ids_witness :
    (publish_many { rcFull with subscribers := [] } "r" opsTwo).events.map (·.event_id) =
      (publish_many rcFull "r" opsTwo).events.map (·.event_id) ∧
    (publish_many rcFull "r" opsTwo).events.length = opsTwo.length ∧
    ((publish_many rcFull "r" opsTwo).events.get ⟨1, by decide⟩).event_id = 1 + 1 := by
  have h := C3_event_ids rcFull "r" opsTwo rfl rfl
  exact ⟨h.2.2 [], h.1, h.2.1 1 (by decide)⟩

/-- C4: for a run whose log satisfies the append numbering invariant,
replay without a cursor returns the whole log in ascending event-id
order, and replay after cursor `k` returns exactly the log's events
with `event_id > k`, again in ascending order. -/
theorem C4_replay (store : RunStore) (rid : String) (r : RunRecord)
    (hs : store.runs rid = some r) (hok : EventIdsOk r) :
    (store.get_events_after rid none = r.events) ∧
    (List.Pairwise (· < ·) ((store.get_events_after rid none).map (·.event_id))) ∧
    (∀ k e, e ∈ store.get_events_after rid (some k) ↔ e ∈ r.events ∧ k < e.event_id) ∧
    (∀ k, List.Pairwise (· < ·) ((store.get_events_after rid (some k)).map (·.event_id))) := by
  have hall : store.get_events_after rid none = r.events := by
    simp [RunStore.get_events_after, hs]
  have hfil : ∀ k, store.get_events_after rid (some k) =
      r.events.filter (fun e => decide (k < e.event_id)) := by
    intro k
    simp [RunStore.get_events_after, hs]
  have hpw : List.Pairwise (fun a b => a.event_id < b.event_id) r.events :=
    pairwise_eventIds r hok
  refine ⟨hall, ?_, ?_, ?_⟩
  · rw [hall]
    exact List.pairwise_map.mpr hpw
  · intro k e
    rw [hfil k]
    simp [List.mem_filter]
  · intro k
    rw [hfil k]
    exact List.pairwise_map.mpr (hpw.sublist (List.filter_sublist _))

/-- C4 witness: on the concrete two-event log of `storeC4`, replay
without a cursor returns both events and replay after cursor 1 returns
exactly the events with id above 1, ascending. -/
theorem C4_replay_witness :
    storeC4.get_events_after "r" none = (publish_many rcFull "r" opsTwo).events ∧
    (∀ e, e ∈ storeC4.get_events_after "r" (some 1) ↔
      e ∈ (publish_many rcFull "r" opsTwo).events ∧ 1 < e.event_id) ∧
    List.Pairwise (· < ·) ((storeC4.get_events_after "r" (some 1)).map (·.event_id)) := by
  have h := C4_replay storeC4 "r" (publish_many rcFull "r" opsTwo) (by decide)
    (eventIdsOk_publish_many "r" opsTwo rcFull (eventIdsOk_fresh rcFull rfl rfl))
  exact ⟨h.1, h.2.2.1 1, h.2.2.2 1⟩

/-- C9: publishing an event appends it to the run's log whatever the
subscriber queues hold, keeps every subscriber registered, delivers the
event to each queue with spare capacity, and leaves each full queue
untouched (the event is dropped for that subscriber only); the
operation is a total function — it cannot block or fail. -/
theorem C9_fanout (r : RunRecord) (rid : String) (t : EventType)
    (p : List (String × Value)) (now : ℚ) :
    ((publish_event_rec r rid t p now).events =
      r.events ++ [published_event r rid t p now]) ∧
    ((publish_event_rec r rid t p now).subscribers.length = r.subscribers.length) ∧
    (∀ (i : Nat) (q : Queue), r.subscribers[i]? = some q → q.items.length < q.maxsize →
      (publish_event_rec r rid t p now).subscribers[i]? =
        some { q with items := q.items ++ [published_event r rid t p now] }) ∧
    (∀ (i : Nat) (q : Queue), r.subscribers[i]? = some q → ¬ q.items.length < q.maxsize →
      (publish_event_rec r rid t p now).subscribers[i]? = some q) := by
  refine ⟨rfl, by simp [publish_event_rec, RunStore._fanout], ?_, ?_⟩
  · intro i q hq hroom
    simp [publish_event_rec, RunStore._fanout, Queue.put_nowait, hq, hroom]
  · intro i q hq hfull
    simp [publish_event_rec, RunStore._fanout, Queue.put_nowait, hq, hfull]

/-- C9 witness: on `rcFull` (queue 0 full at capacity 1, queue 1 empty)
the published event lands in the log and in queue 1, while queue 0
keeps exactly its old item. -/
theorem C9_fanout_witness :
    ((publish_event_rec rcFull "r" EventType.progress [] 0).events =
      rcFull.events ++ [published_event rcFull "r" EventType.progress [] 0]) ∧
    ((publish_event_rec rcFull "r" EventType.progress [] 0).subscribers[1]? =
      some { items := [published_event rcFull "r" EventType.progress [] 0], maxsize := 1 }) ∧
    ((publish_event_rec rcFull "r" EventType.progress [] 0).subscribers[0]? =
      some { items := [{ event_id := 0, run_id := "other", type := EventType.log,
                         timestamp := 0, payload := [] }], maxsize := 1 }) := by
  have h := C9_fanout rcFull "r" EventType.progress [] 0
  refine ⟨h.1, ?_, ?_⟩
  · have h2 := h.2.2.1 1 { items := [], maxsize := 1 } (by decide) (by decide)
    simpa using h2
  · exact h.2.2.2 0
      { items := [{ event_id := 0, run_id := "other", type := EventType.log,
                    timestamp := 0, payload := [] }], maxsize := 1 }
      (by decide) (by decide)

/-- C10: for an existing run, `update_progress(v)` stores the clamped
progress `max 0 (min v 1)` but emits a progress event whose payload
carries the raw argument `v`; for `v` outside `[0,1]` the stored value
and the event payload therefore disagree. -/
theorem C10_raw_progress (store : RunStore) (rid : String) (v : ℚ) (msg : Option String)
    (now : ℚ) (r : RunRecord) (hs : store.runs rid = some r) :
    ∃ r', (store.update_progress rid v msg now).runs rid = some r' ∧
      r'.status.progress = max 0 (min v 1) ∧
      (r'.events.getLast?).map (·.payload) = some (progress_payload v msg) ∧
      (progress_payload v msg).lookup "progress" = some (Value.vRat v) ∧
      ((v < 0 ∨ 1 < v) → r'.status.progress ≠ v) := by
  have hstep : store.update_progress rid v msg now =
      ⟨updRun store.runs rid
        (publish_event_rec
          { r with status := { r.status with progress := max 0 (min v 1) } }
          rid EventType.progress (progress_payload v msg) now)⟩ := by
    simp [RunStore.update_progress, hs, RunStore._publish_event, updRun, updRun_updRun]
  refine ⟨publish_event_rec
      { r with status := { r.status with progress := max 0 (min v 1) } }
      rid EventType.progress (progress_payload v msg) now, ?_, rfl, ?_, ?_, ?_⟩
  · rw [hstep]
    simp [updRun]
  · simp [publish_event_rec, published_event]
  · simp [progress_payload, List.lookup]
  · intro hv
    rcases hv with hv | hv
    · have h1 : min v 1 = v := min_eq_left (by linarith)
      have h2 : max 0 v = 0 := max_eq_left (by linarith)
      show max 0 (min v 1) ≠ v
      rw [h1, h2]
      exact ne_of_gt hv
    · have h1 : min v 1 = 1 := min_eq_right (by linarith)
      have h2 : max (0 : ℚ) 1 = 1 := by norm_num
      show max 0 (min v 1) ≠ v
      rw [h1, h2]
      exact ne_of_lt hv

/-- C10 witness: on the concrete store `storeC10` with `v = 3/2` the
stored progress is the clamp of 3/2 while the event payload carries
3/2 itself, and the two disagree. -/
theorem C10_raw_progress_witness :
    ∃ r', (storeC10.update_progress "r" (3/2) none 5).runs "r" = some r' ∧
      r'.status.progress = max 0 (min (3/2) 1) ∧
      (r'.events.getLast?).map (·.payload) = some (progress_payload (3/2) none) ∧
      (progress_payload (3/2) none).lookup "progress" = some (Value.vRat (3/2)) ∧
      (((3 : ℚ)/2 < 0 ∨ 1 < (3 : ℚ)/2) → r'.status.progress ≠ 3/2) :=
  C10_raw_progress storeC10 "r" (3/2) none 5 rcFull (by decide)

/-- Folding the best-trial update over a non-empty trial sequence
(maximize) selects the earliest trial whose objective is maximal:
everything before it scores strictly lower, everything after at most
as much. -/
theorem foldBest_max_earliest :
    ∀ ts : List TrialRecord, ts ≠ [] →
      ∃ pre b post, ts = pre ++ b :: post ∧
        foldBest ObjectiveDirection.maximize ts = some b ∧
        (∀ x ∈ pre, x.objective.getD 0 < b.objective.getD 0) ∧
        (∀ x ∈ post, x.objective.getD 0 ≤ b.objective.getD 0) := by
  intro ts
  induction ts using List.reverseRecOn with
  | nil => intro h; exact absurd rfl h
  | append_singleton ts t ih =>
    intro _
    rcases eq_or_ne ts [] with rfl | hne
    · exact ⟨[], t, [], by simp, by simp [foldBest, update_best], by simp, by simp⟩
    · obtain ⟨pre, b, post, hdecomp, hfold, hpre, hpost⟩ := ih hne
      have hstep : foldBest ObjectiveDirection.maximize (ts ++ [t]) =
          update_best ObjectiveDirection.maximize (foldBest ObjectiveDirection.maximize ts) t := by
        simp [foldBest, List.foldl_append]
      rw [hfold] at hstep
      by_cases hbt : b.objective.getD 0 < t.objective.getD 0
      · refine ⟨ts, t, [], by simp, ?_, ?_, by simp⟩
        · rw [hstep]
          simp [update_best, hbt]
        · intro x hx
          rw [hdecomp] at hx
          rcases List.mem_append.mp hx with hx | hx
          · exact lt_trans (hpre x hx) hbt
          · rcases List.mem_cons.mp hx with rfl | hx
            · exact hbt
            · exact lt_of_le_of_lt (hpost x hx) hbt
      · refine ⟨pre, b, post ++ [t], by rw [hdecomp]; simp, ?_, hpre, ?_⟩
        · rw [hstep]
          simp [update_best, hbt]
        · intro x hx
          rcases List.mem_append.mp hx with hx | hx
          · exact hpost x hx
          · have hxt : x = t := by simpa using hx
            subst hxt
            exact not_lt.mp hbt

/-- Folding the best-trial update over a non-empty trial sequence
(minimize) selects the earliest trial whose objective is minimal. -/
theorem foldBest_min_earliest :
    ∀ ts : List TrialRecord, ts ≠ [] →
      ∃ pre b post, ts = pre ++ b :: post ∧
        foldBest ObjectiveDirection.minimize ts = some b ∧
        (∀ x ∈ pre, b.objective.getD 0 < x.objective.getD 0) ∧
        (∀ x ∈ post, b.objective.getD 0 ≤ x.objective.getD 0) := by
  intro ts
  induction ts using List.reverseRecOn with
  | nil => intro h; exact absurd rfl h
  | append_singleton ts t ih =>
    intro _
    rcases eq_or_ne ts [] with rfl | hne
    · exact ⟨[], t, [], by simp, by simp [foldBest, update_best], by simp, by simp⟩
    · obtain ⟨pre, b, post, hdecomp, hfold, hpre, hpost⟩ := ih hne
      have hstep : foldBest ObjectiveDirection.minimize (ts ++ [t]) =
          update_best ObjectiveDirection.minimize (foldBest ObjectiveDirection.minimize ts) t := by
        simp [foldBest, List.foldl_append]
      rw [hfold] at hstep
      by_cases hbt : t.objective.getD 0 < b.objective.getD 0
      · refine ⟨ts, t, [], by simp, ?_, ?_, by simp⟩
        · rw [hstep]
          simp [update_best, hbt]
        · intro x hx
          rw [hdecomp] at hx
          rcases List.mem_append.mp hx with hx | hx
          · exact lt_trans hbt (hpre x hx)
          · rcases List.mem_cons.mp hx with rfl | hx
            · exact hbt
            · exact lt_of_lt_of_le hbt (hpost x hx)
      · refine ⟨pre, b, post ++ [t], by rw [hdecomp]; simp, ?_, hpre, ?_⟩
        · rw [hstep]
          simp [update_best, hbt]
        · intro x hx
          rcases List.mem_append.mp hx with hx | hx
          · exact hpost x hx
          · have hxt : x = t := by simpa using hx
            subst hxt
            exact not_lt.mp hbt

/-- C5: the first scored trial always becomes best; a later trial
replaces the incumbent exactly when its objective strictly improves per
the direction (ties keep the incumbent), so the fold selects the
earliest extreme trial; concretely, objectives [0.2, 0.9, 0.5] give
best trial 1 under maximize and best trial 0 under minimize. -/
theorem C5_best_trial :
    (∀ (d : ObjectiveDirection) (t : TrialRecord), update_best d none t = some t) ∧
    (∀ b t : TrialRecord,
      (b.objective.getD 0 < t.objective.getD 0 →
        update_best ObjectiveDirection.maximize (some b) t = some t) ∧
      (¬ b.objective.getD 0 < t.objective.getD 0 →
        update_best ObjectiveDirection.maximize (some b) t = some b)) ∧
    (∀ b t : TrialRecord,
      (t.objective.getD 0 < b.objective.getD 0 →
        update_best ObjectiveDirection.minimize (some b) t = some t) ∧
      (¬ t.objective.getD 0 < b.objective.getD 0 →
        update_best ObjectiveDirection.minimize (some b) t = some b)) ∧
    (∀ ts : List TrialRecord, ts ≠ [] →
      ∃ pre b post, ts = pre ++ b :: post ∧
        foldBest ObjectiveDirection.maximize ts = some b ∧
        (∀ x ∈ pre, x.objective.getD 0 < b.objective.getD 0) ∧
        (∀ x ∈ post, x.objective.getD 0 ≤ b.objective.getD 0)) ∧
    (∀ ts : List TrialRecord, ts ≠ [] →
      ∃ pre b post, ts = pre ++ b :: post ∧
        foldBest ObjectiveDirection.minimize ts = some b ∧
        (∀ x ∈ pre, b.objective.getD 0 < x.objective.getD 0) ∧
        (∀ x ∈ post, b.objective.getD 0 ≤ x.objective.getD 0)) ∧
    bestNumber storeC5max "o" = some 1 ∧
    bestNumber storeC5min "o" = some 0 := by
  refine ⟨fun d t => rfl, ?_, ?_, foldBest_max_earliest, foldBest_min_earliest, ?_, ?_⟩
  · intro b t
    constructor
    · intro hlt
      simp [update_best, hlt]
    · intro hlt
      simp [update_best, hlt]
  · intro b t
    constructor
    · intro hlt
      simp [update_best, hlt]
    · intro hlt
      simp [update_best, hlt]
  · decide
  · decide

/-- C6: `cancel` succeeds exactly when the optimization exists in a
non-terminal state; success stamps `cancelled` and `finished_at`, and a
second cancel then returns false (cancel is a total function — it
cannot raise). -/
theorem C6_cancel (store : OptimizationStore) (opt_id : String) (t1 t2 : ℚ) :
    ((store.cancel opt_id t1).2 = true ↔
      ∃ r, store.optimizations opt_id = some r ∧
        r.state ≠ OptimizationState.completed ∧
        r.state ≠ OptimizationState.failed ∧
        r.state ≠ OptimizationState.cancelled) ∧
    (∀ r, store.optimizations opt_id = some r →
      r.state ≠ OptimizationState.completed →
      r.state ≠ OptimizationState.failed →
      r.state ≠ OptimizationState.cancelled →
      (store.cancel opt_id t1).1.optimizations opt_id =
        some { r with state := OptimizationState.cancelled, finished_at := some t1 }) ∧
    ((store.cancel opt_id t1).2 = true →
      ((store.cancel opt_id t1).1.cancel opt_id t2).2 = false) := by
  cases h : store.optimizations opt_id with
  | none =>
    refine ⟨?_, ?_, ?_⟩
    · simp [OptimizationStore.cancel, h]
    · intro r hr
      exact absurd hr (by simp)
    · simp [OptimizationStore.cancel, h]
  | some r =>
    by_cases hterm : r.state = OptimizationState.completed ∨
        r.state = OptimizationState.failed ∨ r.state = OptimizationState.cancelled
    · refine ⟨?_, ?_, ?_⟩
      · simp only [OptimizationStore.cancel, h, if_pos hterm]
        constructor
        · intro hfalse
          exact absurd hfalse (by simp)
        · rintro ⟨r', hr', h1, h2, h3⟩
          obtain rfl : r = r' := by injection hr'
          rcases hterm with ht | ht | ht
          · exact absurd ht h1
          · exact absurd ht h2
          · exact absurd ht h3
      · intro r' hr' h1 h2 h3
        obtain rfl : r = r' := by injection hr'
        rcases hterm with ht | ht | ht
        · exact absurd ht h1
        · exact absurd ht h2
        · exact absurd ht h3
      · simp only [OptimizationStore.cancel, h, if_pos hterm]
        intro hc
        exact absurd hc (by simp)
    · refine ⟨?_, ?_, ?_⟩
      · simp only [OptimizationStore.cancel, h, if_neg hterm]
        push_neg at hterm
        simp only [true_iff]
        exact ⟨r, rfl, hterm.1, hterm.2.1, hterm.2.2⟩
      · intro r' hr' h1 h2 h3
        obtain rfl : r = r' := by injection hr'
        simp [OptimizationStore.cancel, h, if_neg hterm, updOpt]
      · intro _
        simp only [OptimizationStore.cancel, h, if_neg hterm]
        simp [updOpt]

/-- C6 witness: cancelling the concrete pending optimization `"opt1"`
of `storeC2a` succeeds, stores the cancelled state, and a second cancel
returns false. -/
theorem C6_cancel_witness :
    ((storeC2a.cancel "opt1" 1).2 = true) ∧
    ((storeC2a.cancel "opt1" 1).1.cancel "opt1" 2).2 = false := by
  have h := C6_cancel storeC2a "opt1" 1 2
  have htrue : (storeC2a.cancel "opt1" 1).2 = true := by decide
  exact ⟨htrue, h.2.2 htrue⟩

/-- C5 witness: a strictly better trial replaces the incumbent, a
strictly worse one does not; on the singleton list the fold picks the
only trial. -/
theorem C5_best_trial_witness :
    update_best ObjectiveDirection.maximize (some trialLo) trialHi = some trialHi ∧
    update_best ObjectiveDirection.maximize (some trialHi) trialLo = some trialHi ∧
    (∃ pre b post, [trialLo] = pre ++ b :: post ∧
      foldBest ObjectiveDirection.maximize [trialLo] = some b ∧
      (∀ x ∈ pre, x.objective.getD 0 < b.objective.getD 0) ∧
      (∀ x ∈ post, x.objective.getD 0 ≤ b.objective.getD 0)) := by
  have h := C5_best_trial
  exact ⟨(h.2.1 trialLo trialHi).1 (by decide),
         (h.2.1 trialHi trialLo).2 (by decide),
         h.2.2.2.1 [trialLo] (by simp)⟩

/-- Sum of a constant-valued map. -/
theorem sum_map_const_nat {α : Type} (xs : List α) (n : ℕ) :
    (xs.map (fun _ => n)).sum = xs.length * n := by
  induction xs with
  | nil => simp
  | cons y ys ih => simp [ih, Nat.succ_mul, Nat.add_comm]

/-- The row-major product enumerates `∏ lengths` combinations. -/
theorem prodLists_length {α : Type} (L : List (List α)) :
    (prodLists L).length = (L.map List.length).prod := by
  induction L with
  | nil => rfl
  | cons a rest ih =>
    simp only [prodLists, List.length_flatMap, List.map_cons, List.prod_cons]
    have hfun : (List.length ∘ fun v : α => List.map (fun tail => v :: tail) (prodLists rest))
        = fun _ : α => (prodLists rest).length := by
      funext v
      simp
    rw [hfun, sum_map_const_nat, ih]

/-- Python `int()` of an integral rational is that integer. -/
theorem py_int_intCast (a : ℤ) : py_int ((a : ℚ)) = a := by
  unfold py_int
  split
  · exact Int.floor_intCast a
  · exact Int.ceil_intCast a

/-- C7: the grid of an int-range parameter with integral bounds is
exactly the integers of `[low, high]`, each once; a choice grid is the
value set verbatim; the continuous kinds contribute `steps` points;
the generated combinations are the row-major cartesian product of the
per-parameter grids zipped with the parameter names and truncated to
`max_trials`; and the concrete `x ∈ [1,3]` grid with `max_trials = 10`
yields exactly the three assignments x=1, x=2, x=3. -/
theorem C7_grid :
    (∀ (o : MathOracle) (p : ParameterDef) (steps : Nat) (a b : ℤ),
      p.kind = ParameterKind.int_range → p.low = (a : ℚ) → p.high = (b : ℚ) →
      (∀ z : ℤ, ParamValue.num (z : ℚ) ∈ _grid_values o p steps ↔ a ≤ z ∧ z ≤ b) ∧
      (_grid_values o p steps).Nodup) ∧
    (∀ (o : MathOracle) (p : ParameterDef) (steps : Nat),
      p.kind = ParameterKind.choice → _grid_values o p steps = p.values) ∧
    (∀ (o : MathOracle) (p : ParameterDef) (steps : Nat),
      p.kind = ParameterKind.float_range ∨ p.kind = ParameterKind.log_uniform →
      (_grid_values o p steps).length = steps) ∧
    (∀ (o : MathOracle) (request : OptimizationRequest),
      _generate_grid_combos o request =
        ((prodLists (request.search_space.parameters.map
            (fun p => _grid_values o p request.grid_steps))).map
          (fun vals => (request.search_space.parameters.map (·.name)).zip vals)).take
          request.max_trials) ∧
    (∀ (o : MathOracle) (request : OptimizationRequest),
      (_generate_grid_combos o request).length =
        min request.max_trials
          ((request.search_space.parameters.map
            (fun p => (_grid_values o p request.grid_steps).length)).prod)) ∧
    _generate_grid_combos oMath reqGrid10 =
      [[("x", ParamValue.num 1)], [("x", ParamValue.num 2)], [("x", ParamValue.num 3)]] := by
  refine ⟨?_, ?_, ?_, fun o request => rfl, ?_, ?_⟩
  · intro o p steps a b hk hl hh
    have hgrid : _grid_values o p steps =
        (List.range (b + 1 - a).toNat).map (fun i : Nat => ParamValue.num ((a : ℚ) + (i : ℚ))) := by
      simp [_grid_values, hk, hl, hh, py_int_intCast]
    constructor
    · intro z
      rw [hgrid]
      simp only [List.mem_map, List.mem_range]
      constructor
      · rintro ⟨i, hi, hEq⟩
        injection hEq with h1
        have h2 : a + (i : ℤ) = z := by exact_mod_cast h1
        omega
      · rintro ⟨hz1, hz2⟩
        refine ⟨(z - a).toNat, by omega, ?_⟩
        have h2 : (((z - a).toNat : ℕ) : ℤ) = z - a := by omega
        have h3 : (((z - a).toNat : ℕ) : ℚ) = ((z - a : ℤ) : ℚ) := by exact_mod_cast h2
        rw [h3]
        have h4 : (a : ℚ) + ((z - a : ℤ) : ℚ) = (z : ℚ) := by push_cast; ring
        rw [h4]
    · rw [hgrid]
      refine List.Nodup.map ?_ (List.nodup_range _)
      intro i j hij
      injection hij with h1
      have h2 : (i : ℚ) = (j : ℚ) := by linarith
      exact_mod_cast h2
  · intro o p steps hk
    simp [_grid_values, hk]
  · intro o p steps hk
    rcases hk with hk | hk <;> simp [_grid_values, hk]
  · intro o request
    unfold _generate_grid_combos
    simp only [List.length_take, List.length_map, prodLists_length, List.map_map]
    rfl
  · have hpy1 : py_int (1 : ℚ) = 1 := by
      unfold py_int
      norm_num
    have hpy3 : py_int (3 : ℚ) = 3 := by
      unfold py_int
      norm_num
    simp only [_generate_grid_combos, reqGrid10, reqGrid, _grid_values, prodLists,
      hpy1, hpy3]
    norm_num
    norm_num [show Int.toNat 3 = 3 from rfl, show List.range 3 = [0, 1, 2] from rfl]

/-- C7 witness: on the concrete int-range parameter `x ∈ [1,3]` the
grid contains the integer 2, is duplicate-free, and the membership
characterization is inhabited. -/
theorem C7_grid_witness :
    (ParamValue.num ((2 : ℤ) : ℚ) ∈ _grid_values oMath paramX 5 ↔
      (1 : ℤ) ≤ 2 ∧ (2 : ℤ) ≤ 3) ∧
    (_grid_values oMath paramX 5).Nodup ∧
    ParamValue.num ((2 : ℤ) : ℚ) ∈ _grid_values oMath paramX 5 := by
  have h := C7_grid.1 oMath paramX 5 1 3 rfl (by decide) (by decide)
  exact ⟨h.1 2, h.2, (h.1 2).mpr (by omega)⟩

/-- `check` never changes the limiter's configuration, only its bucket
table. -/
theorem check_config (l : RateLimiter) (ip : String) (now : ℚ) :
    (l.check ip now).1.max_tokens = l.max_tokens ∧ (l.check ip now).1.window = l.window := by
  simp only [RateLimiter.check]
  constructor <;> (split <;> rfl)

/-- C8: refilling is lazy at rate `max_tokens / window` capped at
`max_tokens`; a check consumes one token exactly when at least one is
available after the refill and consumes nothing otherwise; with
`max_tokens = 2`, `window = 60`, two immediate checks for `"k"`
succeed, the third fails, and after the window elapses the key's bucket
refills back to `max_tokens = 2`. -/
theorem C8_token_bucket :
    (∀ (l : RateLimiter) (ip : String) (now : ℚ) (b0 : Bucket),
      (l.buckets ip).getD { tokens := (l.max_tokens : ℚ), last_refill := now } = b0 →
      ((l._refill b0 now).tokens =
        min (l.max_tokens : ℚ)
          (b0.tokens + (now - b0.last_refill) * ((l.max_tokens : ℚ) / l.window))) ∧
      (1 ≤ (l._refill b0 now).tokens →
        (l.check ip now).2.1 = true ∧
        (l.check ip now).1.buckets ip =
          some { tokens := (l._refill b0 now).tokens - 1, last_refill := now }) ∧
      (¬ 1 ≤ (l._refill b0 now).tokens →
        (l.check ip now).2.1 = false ∧
        (l.check ip now).1.buckets ip = some (l._refill b0 now))) ∧
    checkA.2.1 = true ∧ checkB.2.1 = true ∧ checkC.2.1 = false ∧
    (checkC.1._refill
      ((checkC.1.buckets "k").getD { tokens := 2, last_refill := 60 }) 60).tokens = 2 := by
  have general : ∀ (l : RateLimiter) (ip : String) (now : ℚ) (b0 : Bucket),
      (l.buckets ip).getD { tokens := (l.max_tokens : ℚ), last_refill := now } = b0 →
      ((l._refill b0 now).tokens =
        min (l.max_tokens : ℚ)
          (b0.tokens + (now - b0.last_refill) * ((l.max_tokens : ℚ) / l.window))) ∧
      (1 ≤ (l._refill b0 now).tokens →
        (l.check ip now).2.1 = true ∧
        (l.check ip now).1.buckets ip =
          some { tokens := (l._refill b0 now).tokens - 1, last_refill := now }) ∧
      (¬ 1 ≤ (l._refill b0 now).tokens →
        (l.check ip now).2.1 = false ∧
        (l.check ip now).1.buckets ip = some (l._refill b0 now)) := by
    intro l ip now b0 hb
    refine ⟨rfl, ?_, ?_⟩
    · intro h1
      constructor
      · simp only [RateLimiter.check, hb, if_pos h1]
      · simp only [RateLimiter.check, hb, if_pos h1, updBucket]
        simp [RateLimiter._refill]
    · intro h1
      constructor
      · simp only [RateLimiter.check, hb, if_neg h1]
      · simp only [RateLimiter.check, hb, if_neg h1, updBucket]
        simp
  -- step A: fresh bucket, tokens 2 → allowed, 1 left
  have hbA : (limiter2.buckets "k").getD
      { tokens := (limiter2.max_tokens : ℚ), last_refill := 0 } =
      { tokens := 2, last_refill := 0 } := by
    norm_num [limiter2]
  have hrA : (limiter2._refill { tokens := 2, last_refill := 0 } 0).tokens = 2 := by
    norm_num [RateLimiter._refill, limiter2]
  obtain ⟨-, hAyes, -⟩ := general limiter2 "k" 0 { tokens := 2, last_refill := 0 } hbA
  obtain ⟨hAflag, hAbucket⟩ := hAyes (by rw [hrA]; norm_num)
  have hsA : (limiter2.check "k" 0).1.buckets "k" = some { tokens := 1, last_refill := 0 } := by
    rw [hAbucket, hrA]
    norm_num
  have hcA := check_config limiter2 "k" 0
  -- step B: bucket 1 → allowed, 0 left
  have hbB : ((limiter2.check "k" 0).1.buckets "k").getD
      { tokens := ((limiter2.check "k" 0).1.max_tokens : ℚ), last_refill := 0 } =
      { tokens := 1, last_refill := 0 } := by
    rw [hsA]
    rfl
  have hrB : ((limiter2.check "k" 0).1._refill { tokens := 1, last_refill := 0 } 0).tokens = 1 := by
    norm_num [RateLimiter._refill, hcA.1, hcA.2, show limiter2.max_tokens = 2 from rfl,
      show limiter2.window = (60 : ℚ) from rfl, min_def]
  obtain ⟨-, hByes, -⟩ := general (limiter2.check "k" 0).1 "k" 0 { tokens := 1, last_refill := 0 } hbB
  obtain ⟨hBflag, hBbucket⟩ := hByes (by rw [hrB])
  have hsB : ((limiter2.check "k" 0).1.check "k" 0).1.buckets "k" =
      some { tokens := 0, last_refill := 0 } := by
    rw [hBbucket, hrB]
    norm_num
  have hcB := check_config (limiter2.check "k" 0).1 "k" 0
  -- step C: bucket 0 → denied, still 0
  have hbC : (((limiter2.check "k" 0).1.check "k" 0).1.buckets "k").getD
      { tokens := (((limiter2.check "k" 0).1.check "k" 0).1.max_tokens : ℚ), last_refill := 0 } =
      { tokens := 0, last_refill := 0 } := by
    rw [hsB]
    rfl
  have hrC : (((limiter2.check "k" 0).1.check "k" 0).1._refill
      { tokens := 0, last_refill := 0 } 0).tokens = 0 := by
    norm_num [RateLimiter._refill, hcB.1, hcB.2, hcA.1, hcA.2,
      show limiter2.max_tokens = 2 from rfl, show limiter2.window = (60 : ℚ) from rfl, min_def]
  obtain ⟨-, -, hCno⟩ := general ((limiter2.check "k" 0).1.check "k" 0).1 "k" 0
    { tokens := 0, last_refill := 0 } hbC
  obtain ⟨hCflag, hCbucket⟩ := hCno (by rw [hrC]; norm_num)
  have hcC := check_config ((limiter2.check "k" 0).1.check "k" 0).1 "k" 0
  have hsC : (((limiter2.check "k" 0).1.check "k" 0).1.check "k" 0).1.buckets "k" =
      some { tokens := 0, last_refill := 0 } := by
    have hfields : ((limiter2.check "k" 0).1.check "k" 0).1._refill
        { tokens := 0, last_refill := 0 } 0 =
        { tokens := (((limiter2.check "k" 0).1.check "k" 0).1._refill
            { tokens := 0, last_refill := 0 } 0).tokens,
          last_refill := 0 } := rfl
    rw [hCbucket, hfields, hrC]
  refine ⟨general, ?_, ?_, ?_, ?_⟩
  · exact hAflag
  · show ((limiter2.check "k" 0).1.check "k" 0).2.1 = true
    exact hBflag
  · show (((limiter2.check "k" 0).1.check "k" 0).1.check "k" 0).2.1 = false
    exact hCflag
  · show ((((limiter2.check "k" 0).1.check "k" 0).1.check "k" 0).1._refill
      (((((limiter2.check "k" 0).1.check "k" 0).1.check "k" 0).1.buckets "k").getD
        { tokens := 2, last_refill := 60 }) 60).tokens = 2
    rw [hsC]
    norm_num [RateLimiter._refill, hcC.1, hcC.2, hcB.1, hcB.2, hcA.1, hcA.2,
      show limiter2.max_tokens = 2 from rfl, show limiter2.window = (60 : ℚ) from rfl, min_def]

/-- C8 witness: the refill equation and the allowed-consume branch
instantiated on the concrete limiter and key. -/
theorem C8_token_bucket_witness :
    ((limiter2._refill { tokens := 2, last_refill := 0 } 0).tokens =
      min ((limiter2.max_tokens : ℚ))
        ((2 : ℚ) + ((0 : ℚ) - 0) * ((limiter2.max_tokens : ℚ) / limiter2.window))) ∧
    (limiter2.check "k" 0).2.1 = true := by
  have h := C8_token_bucket.1 limiter2 "k" 0 { tokens := 2, last_refill := 0 }
    (by norm_num [limiter2])
  exact ⟨h.1, (h.2.1 (by norm_num [RateLimiter._refill, limiter2])).1⟩
